import Mathlib

/-!
Verification of the live session orchestration pipeline of the eznotes
repository against its specification.  The definitions below are a shallow
embedding of the TypeScript sources:

* `handleWebhookEvent`   embeds the `switch (event)` body of the MeetingBaas
  events webhook (`src/app/api/webhooks/meetingbaas/events/route.ts`);
* `startBot`, `stopBot`, `processMeeting` embed the bot lifecycle service
  (`src/services/bot-service.ts`);
* `handleTranscriptEvent`, `persistFinal`, `handleMetadataMsg` and
  `runSummaryJobState` embed the audio WebSocket bridge
  (`createAudioWebSocketServer` in the websocket audio server module).

Database tables (meetings, transcripts, action items) are modelled as lists
in insertion (row id) order; the external summarization function is an
opaque parameter returning `Option` (with `none` standing for a thrown
error); JavaScript number timestamps are modelled as rationals.
-/

namespace EzNotes

/-- Meeting status values used by the state machine. -/
inductive Status where
  | scheduled
  | recording
  | processing
  | completed
  | failed
deriving DecidableEq, Repr

/-- Position of a status in the forward order
`scheduled < recording < processing < completed` used by the spec when it
speaks about a status regressing.  `failed` is terminal and off this chain. -/
def Status.rank : Status → Nat
  | .scheduled => 0
  | .recording => 1
  | .processing => 2
  | .completed => 3
  | .failed => 4

/-- Structured summary returned by `generateLiveSummary`
(`lib/openai/summary.ts`): topics, decisions and action item titles. -/
structure StructuredSummary where
  topics : List String
  decisions : List String
  actionItems : List String
deriving DecidableEq, Repr

/-- One entry of the summary history stored on the meeting row: the summary
plus the `Date.now()` timestamp recorded when it was appended. -/
structure SummaryEntry where
  timestamp : Nat
  summary : StructuredSummary
deriving DecidableEq, Repr

/-- The meeting database row, with the fields the verified code paths read
or write.  `zoomMeetingId` holds the external MeetingBaas bot id once a bot
has been created; times are seconds/milliseconds as natural numbers; the
stored JSON summary string is modelled structurally. -/
structure MeetingRow where
  id : String
  zoomJoinUrl : Option String
  zoomMeetingId : Option String
  status : Status
  startedAt : Option Nat
  endedAt : Option Nat
  duration : Nat
  summary : Option StructuredSummary
  summaryHistory : List SummaryEntry
deriving DecidableEq, Repr

/-- A transcript fragment row: one persisted unit of transcript text.  The
stored timestamp is the floor of the speech event offset (the code stores
`Math.floor(transcriptData.timestamp)`); confidence is always written as 1. -/
structure Fragment where
  meetingId : String
  text : String
  speaker : String
  timestamp : Int
  confidence : Nat
deriving DecidableEq, Repr

/-- An action item row created by the summarization job. -/
structure ActionItem where
  meetingId : String
  title : String
  status : String
deriving DecidableEq, Repr

/-- Events pushed to the SSE subscribers of a meeting.  The summary event
carries the flag that marks the meeting-final summary (`isFinal` in the
broadcast payload; the periodic job omits the flag, modelled as `false`). -/
inductive Broadcast where
  | transcript (speaker text : String) (timestamp : Rat) (isFinal : Bool)
  | summary (s : StructuredSummary) (isFinal : Bool)
  | status (st : Status)
deriving DecidableEq, Repr

/-!  ## Webhook state machine (events route)  -/

/-- The event kinds accepted by the MeetingBaas events webhook. -/
inductive WebhookEvent where
  | meetingStarted
  | botJoined
  | meetingCompleted
  | meetingFailed
  | botLeft
  | botError
  | recordingStarted
  | recordingStopped
deriving DecidableEq, Repr

/-- Embedding of the `switch (event)` body of the events webhook handler.
The auto-stop call to the provider issued for `meeting.completed` has its
errors caught and does not influence the database update, so it does not
appear here.  `ts` is the webhook timestamp.  Note that every branch writes
its target status unconditionally, without inspecting the current status. -/
def handleWebhookEvent (m : MeetingRow) (e : WebhookEvent) (ts : Nat) : MeetingRow :=
  match e with
  | .meetingStarted | .botJoined =>
      { m with status := .recording, startedAt := some (m.startedAt.getD ts) }
  | .meetingCompleted =>
      { m with status := .processing, endedAt := some ts }
  | .meetingFailed =>
      { m with status := .failed }
  | .botLeft =>
      { m with status := .processing, endedAt := some ts }
  | .botError =>
      { m with status := .failed }
  | .recordingStarted | .recordingStopped => m

/-- A sample meeting row that has already reached the `completed` status. -/
def sampleCompletedMeeting : MeetingRow :=
  { id := "m1"
    zoomJoinUrl := some "url"
    zoomMeetingId := some "bot1"
    status := .completed
    startedAt := some 10
    endedAt := some 100
    duration := 90
    summary := none
    summaryHistory := [] }

/-- Claim C1 (code bug): re-delivering the `meeting.completed` webhook to a
meeting already in the `completed` status does NOT leave the status at
`completed`: the handler unconditionally writes `processing`, so the status
regresses to an earlier state in the order
scheduled < recording < processing < completed, contradicting the
idempotency requirement of the spec. -/
theorem c1_completed_webhook_regresses :
    (handleWebhookEvent sampleCompletedMeeting .meetingCompleted 200).status = .processing ∧
    Status.rank (handleWebhookEvent sampleCompletedMeeting .meetingCompleted 200).status <
      Status.rank Status.completed := by
  decide

/-!  ## Association lists: the in-memory maps of the service and the bridge

The JavaScript `Map` objects (`botIds` in the bot service, `activeSessions`
in the bridge) are modelled as association lists in insertion order, with
`Map.set` replace-if-present semantics.  -/

/-- `Map.get` on an association list: value of the first entry with the key. -/
def lookupEntry {α : Type} (l : List (String × α)) (k : String) : Option α :=
  (l.find? (fun p => decide (p.1 = k))).map (·.2)

/-- `Map.set` on an association list: replace the value when the key is
present, append a new entry otherwise. -/
def setEntry {α : Type} (l : List (String × α)) (k : String) (v : α) : List (String × α) :=
  if l.any (fun p => decide (p.1 = k)) then
    l.map (fun p => if p.1 = k then (k, v) else p)
  else
    l ++ [(k, v)]

/-- `Map.delete` on an association list. -/
def removeEntry {α : Type} (l : List (String × α)) (k : String) : List (String × α) :=
  l.filter (fun p => decide (p.1 ≠ k))

/-!  ## Bot service: processMeeting, stopBot, startBot  -/

/-- Result of `BotService.processMeeting`: the updated meeting row, the
action items table (untouched by this code path), the events broadcast to
SSE clients, and the success flag of the returned value. -/
structure ProcessOutcome where
  meeting : MeetingRow
  items : List ActionItem
  broadcasts : List Broadcast
  success : Bool
deriving DecidableEq, Repr

/-- Embedding of `BotService.processMeeting`.  `summarize` is the opaque
`generateLiveSummary` call, with `none` standing for a thrown error (which
the code catches, leaving `finalSummary` null).  With no transcripts the
meeting is marked `completed` and the function returns success without
summarizing and without broadcasting.  Otherwise the summary broadcast is
sent with `isFinal: true`, and the meeting update writes only `status` and
`summary` (in particular the summary history is not extended and no action
items are created). -/
def processMeeting (summarize : List Fragment → Option StructuredSummary)
    (m : MeetingRow) (transcripts : List Fragment) (items : List ActionItem) :
    ProcessOutcome :=
  if transcripts.isEmpty then
    ⟨{ m with status := .completed }, items, [], true⟩
  else
    match summarize transcripts with
    | some s =>
        ⟨{ m with status := .completed, summary := some s }, items,
         [Broadcast.summary s true, Broadcast.status .completed], true⟩
    | none =>
        ⟨{ m with status := .completed, summary := none }, items,
         [Broadcast.status .completed], true⟩

/-- Result of `BotService.stopBot`: final meeting row, the `botIds` map of
the service, the action items table, the broadcasts issued (by `stopBot`
itself and by the background `processMeeting` invocation), whether `stopBot`
re-raised an error, and the success flag of the background processing
(`none` when processing never ran). -/
structure StopOutcome where
  meeting : MeetingRow
  botIds : List (String × String)
  items : List ActionItem
  broadcasts : List Broadcast
  raised : Bool
  procSuccess : Option Bool
deriving DecidableEq, Repr

/-- The tail of `stopBot` after the provider stop call: update the meeting
to `processing` with end time and duration, broadcast the `processing`
status, then run `processMeeting` (asynchronously in the source, with
errors swallowed by the `.catch`; sequenced here). -/
def stopFinish (summarize : List Fragment → Option StructuredSummary)
    (m : MeetingRow) (transcripts : List Fragment) (items : List ActionItem)
    (botIds : List (String × String)) (now : Nat) : StopOutcome :=
  let m1 : MeetingRow :=
    { m with status := .processing, endedAt := some now,
             duration := match m.startedAt with
                         | some t => (now - t) / 1000
                         | none => 0 }
  let proc := processMeeting summarize m1 transcripts items
  ⟨proc.meeting, botIds, proc.items,
   Broadcast.status .processing :: proc.broadcasts, false, some proc.success⟩

/-- Embedding of `BotService.stopBot`.  The bot id is taken from the
in-memory `botIds` map, falling back to the stored `zoomMeetingId`.  When a
bot id exists, the provider stop call is issued first (`providerStopOk`
models its result); a failure there is re-raised by the surrounding catch
before any update happens.  On success the map entry is deleted and the
meeting moves to `processing`, after which background processing runs. -/
def stopBot (summarize : List Fragment → Option StructuredSummary)
    (m : MeetingRow) (transcripts : List Fragment) (items : List ActionItem)
    (botIds : List (String × String)) (providerStopOk : Bool) (now : Nat) :
    StopOutcome :=
  let botId := match lookupEntry botIds m.id with
               | some b => some b
               | none => m.zoomMeetingId
  match botId with
  | some _ =>
      if providerStopOk then
        stopFinish summarize m transcripts items (removeEntry botIds m.id) now
      else
        ⟨m, botIds, items, [], true, none⟩
  | none => stopFinish summarize m transcripts items botIds now

/-- Ephemeral session of the audio bridge: the identity-relevant fields of
the `MeetingSession` record (the Deepgram connection handle, event emitter,
interval handle and participant name map carry no state the claims are
about). -/
structure Session where
  botId : String
  meetingId : String
deriving DecidableEq, Repr

/-- Result of `BotService.startBot`: the updated meeting row, the `botIds`
map, whether the error was re-raised, the bot id returned on success, and
the session registry and the set of meetings with a running summarization
scheduler, both of which this code path never touches (they are owned by
the audio bridge). -/
structure StartOutcome where
  meeting : MeetingRow
  botIds : List (String × String)
  raised : Bool
  returnedBotId : Option String
  sessions : List (String × Session)
  schedulers : List String
deriving DecidableEq, Repr

/-- Embedding of `BotService.startBot` for a meeting row that was found.
`providerResult` is the opaque `meetingBaasClient.createBot` call: `some id`
on success, `none` for a thrown provider error.  A missing join URL throws
before the provider call; the surrounding catch marks the meeting `failed`
and re-raises in both throwing paths. -/
def startBot (m : MeetingRow) (providerResult : Option String)
    (botIds : List (String × String)) (sessions : List (String × Session))
    (schedulers : List String) (now : Nat) : StartOutcome :=
  if m.zoomJoinUrl = none then
    ⟨{ m with status := .failed }, botIds, true, none, sessions, schedulers⟩
  else
    match providerResult with
    | none =>
        ⟨{ m with status := .failed }, botIds, true, none, sessions, schedulers⟩
    | some botId =>
        ⟨{ m with status := .recording, startedAt := some now,
                  zoomMeetingId := some botId },
         setEntry botIds m.id botId, false, some botId, sessions, schedulers⟩

/-- Claim C5: stopping a meeting whose transcript store holds zero fragments
(given the provider stop call succeeds) moves the meeting to `completed`,
leaves the stored summary, summary history and action items untouched,
raises no error, and the final-processing path returns success.  The only
broadcast is the `processing` status event (the empty-transcript branch of
`processMeeting` returns before broadcasting `completed`). -/
theorem c5_stop_without_transcripts (summarize : List Fragment → Option StructuredSummary)
    (m : MeetingRow) (items : List ActionItem) (botIds : List (String × String))
    (now : Nat) :
    (stopBot summarize m [] items botIds true now).meeting.status = .completed ∧
    (stopBot summarize m [] items botIds true now).meeting.summary = m.summary ∧
    (stopBot summarize m [] items botIds true now).meeting.summaryHistory = m.summaryHistory ∧
    (stopBot summarize m [] items botIds true now).items = items ∧
    (stopBot summarize m [] items botIds true now).broadcasts = [Broadcast.status .processing] ∧
    (stopBot summarize m [] items botIds true now).raised = false ∧
    (stopBot summarize m [] items botIds true now).procSuccess = some true := by
  unfold stopBot
  cases h1 : lookupEntry botIds m.id with
  | some b => simp [stopFinish, processMeeting]
  | none =>
      cases h2 : m.zoomMeetingId with
      | some b => simp [stopFinish, processMeeting]
      | none => simp [stopFinish, processMeeting]

/-- Claim C6: when the provider bot-creation call fails during a start
command, the meeting is left in `failed`, the error is re-raised to the
caller, the `botIds` map is unchanged, no Session is created and no
summarization scheduler is started (the registry and scheduler set are
returned exactly as given; `startBot` never writes them). -/
theorem c6_start_provider_failure (m : MeetingRow) (botIds : List (String × String))
    (sessions : List (String × Session)) (schedulers : List String) (now : Nat)
    (hurl : m.zoomJoinUrl ≠ none) :
    startBot m none botIds sessions schedulers now =
      ⟨{ m with status := .failed }, botIds, true, none, sessions, schedulers⟩ := by
  unfold startBot
  simp [hurl]

/-- Witness for claim C6 at a concrete meeting row. -/
theorem c6_start_provider_failure_witness :
    (sampleCompletedMeeting.zoomJoinUrl ≠ none) ∧
    startBot sampleCompletedMeeting none [] [] [] 7 =
      ⟨{ sampleCompletedMeeting with status := .failed }, [], true, none, [], []⟩ := by
  refine ⟨by decide, c6_start_provider_failure sampleCompletedMeeting [] [] [] 7 (by decide)⟩

/-!  ## Periodic summarization job  -/

/-- Saving one action item title in the periodic job: look up an existing
item with the same meeting id and exact title and create a new `pending`
item only when none exists. -/
def saveActionItem (items : List ActionItem) (mid title : String) : List ActionItem :=
  if items.any (fun it => decide (it.meetingId = mid ∧ it.title = title)) then
    items
  else
    items ++ [⟨mid, title, "pending"⟩]

/-- The `for (const item of summary.actionItems)` loop of the periodic job. -/
def saveAll (items : List ActionItem) (mid : String) (titles : List String) :
    List ActionItem :=
  titles.foldl (fun acc t => saveActionItem acc mid t) items

/-- One scheduled invocation of the 30-second summary interval: the
transcripts read from the store at that moment, the opaque summarization
call (with `none` for a thrown error) and the `Date.now()` value. -/
structure SummaryRun where
  transcripts : List Fragment
  result : List Fragment → Option StructuredSummary
  now : Nat

/-- The shared state the periodic job reads and writes: the meeting row,
the action items table and the broadcast log. -/
structure JobState where
  meeting : MeetingRow
  items : List ActionItem
  broadcasts : List Broadcast

/-- Embedding of the body of the 30-second `setInterval` callback of the
audio bridge: no-op when the store has no transcripts or when the
summarization call throws; otherwise save the deduplicated action items,
broadcast the summary (without a final flag) and persist the summary plus
a new summary history entry on the meeting row. -/
def runSummaryJobState (r : SummaryRun) (st : JobState) : JobState :=
  if r.transcripts.isEmpty then st
  else
    match r.result r.transcripts with
    | none => st
    | some s =>
        { meeting :=
            { st.meeting with
              summary := some s,
              summaryHistory := st.meeting.summaryHistory ++ [⟨r.now, s⟩] },
          items := saveAll st.items st.meeting.id s.actionItems,
          broadcasts := st.broadcasts ++ [Broadcast.summary s false] }

/-- A sequence of successive scheduler runs. -/
def runJobs (runs : List SummaryRun) (st : JobState) : JobState :=
  runs.foldl (fun s r => runSummaryJobState r s) st

/-- Two action items collide when they belong to the same meeting and have
the exact same title. -/
def sameKey (a b : ActionItem) : Prop :=
  a.meetingId = b.meetingId ∧ a.title = b.title

/-- The action items table holds at most one item per meeting and exact
title. -/
def UniqueTitles (items : List ActionItem) : Prop :=
  items.Pairwise (fun a b => ¬ sameKey a b)

theorem saveActionItem_uniqueTitles {items : List ActionItem} {mid title : String}
    (h : UniqueTitles items) : UniqueTitles (saveActionItem items mid title) := by
  unfold saveActionItem
  split
  · exact h
  · next hany =>
      rw [List.any_eq_true] at hany
      push_neg at hany
      unfold UniqueTitles
      rw [List.pairwise_append]
      refine ⟨h, List.pairwise_singleton _ _, ?_⟩
      intro a ha b hb
      simp only [List.mem_singleton] at hb
      subst hb
      intro hk
      exact hany a ha (decide_eq_true ⟨hk.1, hk.2⟩)

theorem saveActionItem_mem {items : List ActionItem} {mid title : String}
    {it : ActionItem} (h : it ∈ saveActionItem items mid title) :
    it ∈ items ∨ it.status = "pending" := by
  unfold saveActionItem at h
  split at h
  · exact Or.inl h
  · rcases List.mem_append.mp h with h1 | h1
    · exact Or.inl h1
    · simp only [List.mem_singleton] at h1
      subst h1
      exact Or.inr rfl

theorem saveAll_uniqueTitles {mid : String} (titles : List String)
    {items : List ActionItem} (h : UniqueTitles items) :
    UniqueTitles (saveAll items mid titles) := by
  induction titles generalizing items with
  | nil => exact h
  | cons t ts ih => exact ih (saveActionItem_uniqueTitles h)

theorem saveAll_mem {mid : String} (titles : List String)
    {items : List ActionItem} {it : ActionItem}
    (h : it ∈ saveAll items mid titles) :
    it ∈ items ∨ it.status = "pending" := by
  induction titles generalizing items with
  | nil => exact Or.inl h
  | cons t ts ih =>
      rcases ih h with h1 | h1
      · exact saveActionItem_mem h1
      · exact Or.inr h1

theorem runSummaryJobState_uniqueTitles {r : SummaryRun} {st : JobState}
    (h : UniqueTitles st.items) :
    UniqueTitles (runSummaryJobState r st).items := by
  unfold runSummaryJobState
  split
  · exact h
  · split
    · exact h
    · exact saveAll_uniqueTitles _ h

theorem runSummaryJobState_mem {r : SummaryRun} {st : JobState} {it : ActionItem}
    (h : it ∈ (runSummaryJobState r st).items) :
    it ∈ st.items ∨ it.status = "pending" := by
  unfold runSummaryJobState at h
  split at h
  · exact Or.inl h
  · split at h
    · exact Or.inl h
    · exact saveAll_mem _ h

/-- Claim C8: across any sequence of scheduler runs, however often the
summarization function repeats a title, at most one ActionItem with a given
exact title exists per meeting, and every item the runs created is in
`pending` status. -/
theorem c8_action_item_dedup (runs : List SummaryRun) (st : JobState)
    (h : UniqueTitles st.items) :
    UniqueTitles (runJobs runs st).items ∧
    ∀ it ∈ (runJobs runs st).items, it ∈ st.items ∨ it.status = "pending" := by
  induction runs generalizing st with
  | nil => exact ⟨h, fun it hit => Or.inl hit⟩
  | cons r rs ih =>
      have h1 := @runSummaryJobState_uniqueTitles r st h
      obtain ⟨hu, hm⟩ := ih (runSummaryJobState r st) h1
      refine ⟨hu, fun it hit => ?_⟩
      rcases hm it hit with h2 | h2
      · exact runSummaryJobState_mem h2
      · exact Or.inr h2

/-- A sample transcript fragment used by concrete evaluations. -/
def sampleFragment : Fragment :=
  ⟨"m1", "We should send the proposal", "Speaker 0", 1, 1⟩

/-- A summarization result that repeats the same action item title. -/
def sampleSummarizer : List Fragment → Option StructuredSummary :=
  fun _ => some ⟨["proposal"], [], ["Send proposal", "Send proposal"]⟩

/-- A sample meeting row in `recording` status with no summaries yet. -/
def sampleRecordingMeeting : MeetingRow :=
  { id := "m1"
    zoomJoinUrl := some "url"
    zoomMeetingId := some "bot1"
    status := .recording
    startedAt := some 10
    endedAt := none
    duration := 0
    summary := none
    summaryHistory := [] }

/-- Witness for claim C8: two successive runs whose summaries both repeat
the title Send proposal leave exactly one pending item with that title. -/
theorem c8_action_item_dedup_witness :
    UniqueTitles ([] : List ActionItem) ∧
    (UniqueTitles (runJobs [⟨[sampleFragment], sampleSummarizer, 0⟩,
        ⟨[sampleFragment], sampleSummarizer, 30⟩] ⟨sampleRecordingMeeting, [], []⟩).items ∧
      ∀ it ∈ (runJobs [⟨[sampleFragment], sampleSummarizer, 0⟩,
        ⟨[sampleFragment], sampleSummarizer, 30⟩] ⟨sampleRecordingMeeting, [], []⟩).items,
        it ∈ ([] : List ActionItem) ∨ it.status = "pending") := by
  refine ⟨List.Pairwise.nil, c8_action_item_dedup _ _ List.Pairwise.nil⟩

/-- Claim C7 counterexample: with one stored transcript fragment and a
summarizer returning one action item title, the periodic job creates the
pending item and appends to the summary history, while the final
synchronous run of `processMeeting` creates no item and leaves the summary
history untouched — so the final run does not execute the same
summarize-and-persist logic as the periodic job. -/
theorem c7_counterexample :
    (processMeeting sampleSummarizer sampleRecordingMeeting [sampleFragment] []).items = [] ∧
    (processMeeting sampleSummarizer sampleRecordingMeeting [sampleFragment] []).meeting.summaryHistory = [] ∧
    (runSummaryJobState ⟨[sampleFragment], sampleSummarizer, 0⟩
        ⟨sampleRecordingMeeting, [], []⟩).items = [⟨"m1", "Send proposal", "pending"⟩] ∧
    (runSummaryJobState ⟨[sampleFragment], sampleSummarizer, 0⟩
        ⟨sampleRecordingMeeting, [], []⟩).meeting.summaryHistory.length = 1 := by
  refine ⟨rfl, rfl, ?_, rfl⟩
  decide

/-- Claim C7 as amended: the final synchronous run on transition to
processing/completed invokes the same summarization function and persists
its result as the meeting's current summary and publishes the summary event
flagged as final followed by the completed status event, but unlike the
periodic job it appends nothing to the summary history and creates no
ActionItem. -/
theorem c7_final_run_persists_summary_only
    (summarize : List Fragment → Option StructuredSummary) (m : MeetingRow)
    (transcripts : List Fragment) (items : List ActionItem) (s : StructuredSummary)
    (hne : transcripts ≠ []) (hs : summarize transcripts = some s) :
    processMeeting summarize m transcripts items =
      ⟨{ m with status := .completed, summary := some s }, items,
       [Broadcast.summary s true, Broadcast.status .completed], true⟩ := by
  unfold processMeeting
  have h1 : transcripts.isEmpty = false := by
    cases transcripts with
    | nil => exact absurd rfl hne
    | cons a l => rfl
  rw [h1, hs]
  rfl

/-- Witness for the amended claim C7 at a concrete meeting and summarizer. -/
theorem c7_final_run_witness :
    ([sampleFragment] ≠ ([] : List Fragment)) ∧
    (sampleSummarizer [sampleFragment] =
      some ⟨["proposal"], [], ["Send proposal", "Send proposal"]⟩) ∧
    processMeeting sampleSummarizer sampleRecordingMeeting [sampleFragment] [] =
      ⟨{ sampleRecordingMeeting with
          status := .completed,
          summary := some ⟨["proposal"], [], ["Send proposal", "Send proposal"]⟩ }, [],
       [Broadcast.summary ⟨["proposal"], [], ["Send proposal", "Send proposal"]⟩ true,
        Broadcast.status .completed], true⟩ := by
  refine ⟨by decide, rfl, c7_final_run_persists_summary_only sampleSummarizer
    sampleRecordingMeeting [sampleFragment] []
    ⟨["proposal"], [], ["Send proposal", "Send proposal"]⟩ (by decide) rfl⟩

/-!  ## Audio bridge: transcript events, merge heuristic, transcript store

`handleTranscriptEvent` embeds the body of the Deepgram `Transcript` event
listener for one connection: `ev` is the computed `transcriptData` record
(text, speaker label, timestamp in seconds, is-final flag), the cursor is
the per-session merge cursor (`lastSpeaker`/`lastTranscript`/`lastTimestamp`
fields of the `MeetingSession`), and the store is the transcript table in
row insertion order.  -/

/-- Whitespace recognised by the JavaScript string trim used on transcript
texts (the characters that occur in this model). -/
def isWS (c : Char) : Bool := c = ' ' ∨ c = '\t' ∨ c = '\n' ∨ c = '\r'

/-- Drop whitespace from both ends of a character list. -/
def trimChars (l : List Char) : List Char :=
  ((l.dropWhile isWS).reverse.dropWhile isWS).reverse

/-- Embedding of the JavaScript string trim applied by the bridge. -/
def jsTrim (s : String) : String := ⟨trimChars s.data⟩

theorem jsTrim_empty : jsTrim "" = "" := rfl

theorem text_ne_empty_of_jsTrim {s : String} (h : jsTrim s ≠ "") : s ≠ "" :=
  fun he => h (by rw [he]; rfl)

/-- One `transcriptData` record handed to the final-transcript logic:
recognised text, speaker label, timestamp in seconds and the is-final
flag. -/
structure SpeechEvent where
  text : String
  speaker : String
  timestamp : Rat
  isFinal : Bool
deriving DecidableEq, Repr

/-- The merge cursor kept on the session (all three fields start out
undefined). -/
structure MergeCursor where
  lastSpeaker : Option String
  lastTranscript : Option String
  lastTimestamp : Option Rat
deriving DecidableEq, Repr

/-- Cursor of a freshly created session. -/
def freshCursor : MergeCursor := ⟨none, none, none⟩

/-- JavaScript truthiness of an optional string: undefined and the empty
string are falsy. -/
def truthyStr : Option String → Bool
  | none => false
  | some s => decide (s ≠ "")

/-- Subtraction of two rationals written through `mkRat` so that it
evaluates inside the kernel; `ratSub_eq_sub` identifies it with ordinary
subtraction. -/
def ratSub (a b : Rat) : Rat :=
  mkRat (a.num * (b.den : Int) - b.num * (a.den : Int)) (a.den * b.den)

theorem ratSub_eq_sub (a b : Rat) : ratSub a b = a - b := by
  unfold ratSub
  rw [Rat.mkRat_eq_div]
  have ha : ((a.den : ℚ)) ≠ 0 := by
    exact_mod_cast a.den_nz
  have hb : ((b.den : ℚ)) ≠ 0 := by
    exact_mod_cast b.den_nz
  conv_rhs => rw [← Rat.num_div_den a, ← Rat.num_div_den b]
  push_cast
  field_simp
  ring

/-- The `timeSinceLastSegment < 5` test of the bridge.  The source computes
`currentSession?.lastTimestamp ? timestamp - lastTimestamp : Infinity`, so
an absent cursor — and, through JavaScript falsiness, a last timestamp of
exactly 0 — yields `Infinity`, which is never below the window. -/
def timeSinceOk (cur : MergeCursor) (ts : Rat) : Bool :=
  match cur.lastTimestamp with
  | none => false
  | some t => if t = 0 then false else decide (ratSub ts t < 5)

/-- The merge decision of the bridge: same speaker as the cursor, within
the 5 second window, and a truthy last transcript on the cursor. -/
def mergeCond (cur : MergeCursor) (ev : SpeechEvent) : Bool :=
  decide (cur.lastSpeaker = some ev.speaker) && timeSinceOk cur ev.timestamp &&
    truthyStr cur.lastTranscript

/-- Helper scanning the store for the row to merge into: among rows of the
given meeting and speaker, keep the index of the first row carrying the
maximal timestamp (the `findFirst ... orderBy timestamp desc` query; ties
resolve to the earliest row). -/
def latestIdxAux (mid spk : String) :
    List Fragment → Nat → Option (Nat × Int) → Option (Nat × Int)
  | [], _, best => best
  | f :: rest, i, best =>
      let best1 :=
        if f.meetingId = mid ∧ f.speaker = spk then
          match best with
          | none => some (i, f.timestamp)
          | some (j, t) => if t < f.timestamp then some (i, f.timestamp) else some (j, t)
        else best
      latestIdxAux mid spk rest (i + 1) best1

/-- Index of the most recent stored fragment for a meeting and speaker. -/
def latestIdx (store : List Fragment) (mid spk : String) : Option Nat :=
  (latestIdxAux mid spk store 0 none).map (·.1)

/-- The merge update: append one space plus the trimmed new text to the
stored text of the row (`prisma.transcript.update` writes only `text`). -/
def mergeText (f : Fragment) (newText : String) : Fragment :=
  { f with text := f.text ++ " " ++ jsTrim newText }

/-- The persist step for a final event with truthy trimmed text: merge into
the most recent row of this meeting and speaker when the merge decision
holds and such a row exists (when none exists the merge branch writes
nothing), otherwise create a new row with the trimmed text, the floor of
the timestamp and confidence 1.  Afterwards the cursor is set to the event
in both cases. -/
def persistFinal (mid : String) (cur : MergeCursor) (store : List Fragment)
    (ev : SpeechEvent) : MergeCursor × List Fragment :=
  let store1 :=
    if mergeCond cur ev then
      match latestIdx store mid ev.speaker with
      | some i =>
          match store[i]? with
          | some f => store.set i (mergeText f ev.text)
          | none => store
      | none => store
    else
      store ++ [⟨mid, jsTrim ev.text, ev.speaker, ev.timestamp.floor, 1⟩]
  (⟨some ev.speaker, some ev.text, some ev.timestamp⟩, store1)

/-- State touched by the transcript listener of one session: merge cursor,
transcript store and the log of SSE broadcasts. -/
structure BridgeState where
  cursor : MergeCursor
  store : List Fragment
  broadcasts : List Broadcast
deriving DecidableEq, Repr

/-- Embedding of the transcript listener body: a falsy (empty) text skips
everything; a final event with truthy trimmed text is persisted and moves
the cursor; every surviving event — interim, final, or whitespace-only
final — is broadcast to the SSE clients of the meeting. -/
def handleTranscriptEvent (mid : String) (st : BridgeState) (ev : SpeechEvent) :
    BridgeState :=
  if ev.text = "" then st
  else
    let p :=
      if ev.isFinal && decide (jsTrim ev.text ≠ "") then
        persistFinal mid st.cursor st.store ev
      else (st.cursor, st.store)
    ⟨p.1, p.2,
     st.broadcasts ++ [Broadcast.transcript ev.speaker ev.text ev.timestamp ev.isFinal]⟩

/-- Process a sequence of transcript events in order. -/
def runEvents (mid : String) (st : BridgeState) (evs : List SpeechEvent) :
    BridgeState :=
  evs.foldl (handleTranscriptEvent mid) st

/-- Left-append further words to a base text, one space per word. -/
def appendWords (base : String) : List String → String
  | [] => base
  | t :: ts => appendWords (base ++ " " ++ t) ts

/-- Space-joined concatenation of a list of texts. -/
def spaceJoin : List String → String
  | [] => ""
  | t :: ts => appendWords t ts

/-- A chain of final speech events of speaker `s` following a previous
timestamp `t0`: each event is final with non-whitespace text, timestamps
strictly increase, and each consecutive gap is below the 5 second window. -/
def GoodChain (s : String) : Rat → List SpeechEvent → Prop
  | _, [] => True
  | t0, ev :: evs =>
      ev.speaker = s ∧ ev.isFinal = true ∧ jsTrim ev.text ≠ "" ∧
        t0 < ev.timestamp ∧ ratSub ev.timestamp t0 < 5 ∧ GoodChain s ev.timestamp evs

theorem mergeCond_true {cur : MergeCursor} {ev : SpeechEvent} {t0 : Rat} {w : String}
    (h1 : cur.lastSpeaker = some ev.speaker)
    (h2 : cur.lastTimestamp = some t0) (ht : t0 ≠ 0)
    (hg : ratSub ev.timestamp t0 < 5)
    (h3 : cur.lastTranscript = some w) (hw : w ≠ "") :
    mergeCond cur ev = true := by
  unfold mergeCond timeSinceOk truthyStr
  rw [h1, h2, h3]
  simp [ht, hg, hw]

theorem latestIdx_singleton {f : Fragment} {mid spk : String}
    (hm : f.meetingId = mid) (hs : f.speaker = spk) :
    latestIdx [f] mid spk = some 0 := by
  unfold latestIdx latestIdxAux
  simp [hm, hs, latestIdxAux]

theorem handleTranscriptEvent_merge (mid s w : String) (t0 : Rat) (f : Fragment)
    (bs : List Broadcast) (e : SpeechEvent)
    (hm : f.meetingId = mid) (hfs : f.speaker = s)
    (hw : w ≠ "") (ht : t0 ≠ 0)
    (hsp : e.speaker = s) (hfin : e.isFinal = true) (htr : jsTrim e.text ≠ "")
    (hgap : ratSub e.timestamp t0 < 5) :
    handleTranscriptEvent mid ⟨⟨some s, some w, some t0⟩, [f], bs⟩ e =
      ⟨⟨some e.speaker, some e.text, some e.timestamp⟩, [mergeText f e.text],
       bs ++ [Broadcast.transcript e.speaker e.text e.timestamp e.isFinal]⟩ := by
  have htext : e.text ≠ "" := text_ne_empty_of_jsTrim htr
  have hmc : mergeCond ⟨some s, some w, some t0⟩ e = true :=
    mergeCond_true (by rw [hsp]) rfl ht hgap rfl hw
  have hidx : latestIdx [f] mid e.speaker = some 0 :=
    latestIdx_singleton hm (by rw [hsp, hfs])
  unfold handleTranscriptEvent persistFinal
  rw [if_neg htext, hfin]
  simp only [Bool.true_and, htr, decide_eq_true_eq, if_true, decide_not]
  rw [hmc, hidx]
  simp [htr]

theorem handleTranscriptEvent_create_fresh (mid : String) (e : SpeechEvent)
    (hfin : e.isFinal = true) (htr : jsTrim e.text ≠ "") :
    handleTranscriptEvent mid ⟨freshCursor, [], []⟩ e =
      ⟨⟨some e.speaker, some e.text, some e.timestamp⟩,
       [⟨mid, jsTrim e.text, e.speaker, e.timestamp.floor, 1⟩],
       [Broadcast.transcript e.speaker e.text e.timestamp e.isFinal]⟩ := by
  have htext : e.text ≠ "" := text_ne_empty_of_jsTrim htr
  have hmc : mergeCond freshCursor e = false := by
    unfold mergeCond timeSinceOk freshCursor
    simp
  unfold handleTranscriptEvent persistFinal
  rw [if_neg htext, hfin]
  simp [htr, hmc]

theorem runEvents_chain (mid s : String) (evs : List SpeechEvent) :
    ∀ (f : Fragment) (w : String) (t0 : Rat) (bs : List Broadcast),
      f.meetingId = mid → f.speaker = s → w ≠ "" → 0 < t0 →
      GoodChain s t0 evs →
      (runEvents mid ⟨⟨some s, some w, some t0⟩, [f], bs⟩ evs).store =
        [{ f with text := appendWords f.text (evs.map (fun e => jsTrim e.text)) }] := by
  induction evs with
  | nil =>
      intro f w t0 bs hm hs hw ht _
      simp [runEvents, appendWords]
  | cons e rest ih =>
      intro f w t0 bs hm hs hw ht hch
      obtain ⟨hsp, hfin, htr, hlt, hgap, hch2⟩ := hch
      have htext : e.text ≠ "" := text_ne_empty_of_jsTrim htr
      have hstep := handleTranscriptEvent_merge mid s w t0 f bs e hm hs hw
        (ne_of_gt ht) hsp hfin htr hgap
      unfold runEvents
      rw [List.foldl_cons, hstep, hsp]
      have hres := ih (mergeText f e.text) e.text e.timestamp
        (bs ++ [Broadcast.transcript s e.text e.timestamp e.isFinal])
        (by simp [mergeText, hm]) (by simp [mergeText, hs]) htext
        (lt_trans ht hlt) hch2
      unfold runEvents at hres
      rw [hres]
      simp only [mergeText, appendWords, List.map_cons]

/-- Claim C2 as amended: a non-empty sequence of final speech events of one
speaker, each with non-whitespace text and positive timestamp, timestamps
strictly increasing with every consecutive gap below the 5 second merge
window, processed from a fresh session, leaves the store with exactly one
fragment whose text is the space-joined concatenation of the trimmed event
texts in order (and whose timestamp is the floor of the first timestamp). -/
theorem c2_single_merged_fragment (mid s : String) (e : SpeechEvent)
    (rest : List SpeechEvent)
    (hsp : e.speaker = s) (hfin : e.isFinal = true) (htr : jsTrim e.text ≠ "")
    (ht : 0 < e.timestamp) (hch : GoodChain s e.timestamp rest) :
    (runEvents mid ⟨freshCursor, [], []⟩ (e :: rest)).store =
      [⟨mid, spaceJoin ((e :: rest).map (fun x => jsTrim x.text)), s,
        e.timestamp.floor, 1⟩] := by
  have htext : e.text ≠ "" := text_ne_empty_of_jsTrim htr
  have hstep := handleTranscriptEvent_create_fresh mid e hfin htr
  unfold runEvents
  rw [List.foldl_cons, hstep, hsp]
  have hres := runEvents_chain mid s rest
    ⟨mid, jsTrim e.text, s, e.timestamp.floor, 1⟩ e.text e.timestamp
    [Broadcast.transcript s e.text e.timestamp e.isFinal]
    rfl rfl htext ht hch
  unfold runEvents at hres
  rw [hres]
  simp only [spaceJoin, List.map_cons]

/-- Witness for the amended claim C2: three final events from Alice at
timestamps 1, 2, 3 with gaps under the window end as the single fragment
with the space-joined text. -/
theorem c2_single_merged_fragment_witness :
    GoodChain "Alice" 1
      [⟨"ship Friday", "Alice", 2, true⟩, ⟨".", "Alice", 3, true⟩] ∧
    (runEvents "m1" ⟨freshCursor, [], []⟩
        [⟨"We should", "Alice", 1, true⟩, ⟨"ship Friday", "Alice", 2, true⟩,
         ⟨".", "Alice", 3, true⟩]).store =
      [⟨"m1", spaceJoin ([(⟨"We should", "Alice", 1, true⟩ : SpeechEvent),
          ⟨"ship Friday", "Alice", 2, true⟩,
          ⟨".", "Alice", 3, true⟩].map (fun x => jsTrim x.text)), "Alice",
        (1 : Rat).floor, 1⟩] := by
  have hch : GoodChain "Alice" 1
      [⟨"ship Friday", "Alice", 2, true⟩, ⟨".", "Alice", 3, true⟩] := by
    refine ⟨rfl, rfl, by decide, by decide, by decide, rfl, rfl, by decide,
      by decide, by decide, trivial⟩
  exact ⟨hch, c2_single_merged_fragment "m1" "Alice" ⟨"We should", "Alice", 1, true⟩
    [⟨"ship Friday", "Alice", 2, true⟩, ⟨".", "Alice", 3, true⟩]
    rfl rfl (by decide) (by decide) hch⟩

/-- Claim C2 counterexample: a single final event whose text is whitespace
only satisfies the hypotheses of the claim as stated (one speaker,
trivially increasing timestamps and gaps), yet the store ends with zero
fragments, not exactly one. -/
theorem c2_counterexample :
    (runEvents "m1" ⟨freshCursor, [], []⟩
        [⟨" ", "Alice", 1, true⟩]).store.length = 0 ∧ (0 : Nat) ≠ 1 := by
  decide

/-- Claim C9: the merge path of the persist step rewrites the found row to
`mergeText` of it, which changes only the text field: meeting id, speaker,
timestamp and confidence are untouched, and any number of chained
`mergeText` applications still preserves all four fields — so a fragment
built up by merges keeps the (floored) timestamp of its first event. -/
theorem c9_merge_updates_only_text (mid : String) (cur : MergeCursor)
    (store : List Fragment) (ev : SpeechEvent) (i : Nat) (f : Fragment)
    (texts : List String)
    (hc : mergeCond cur ev = true)
    (hi : latestIdx store mid ev.speaker = some i)
    (hf : store[i]? = some f) :
    (persistFinal mid cur store ev).snd = store.set i (mergeText f ev.text) ∧
    (mergeText f ev.text).meetingId = f.meetingId ∧
    (mergeText f ev.text).speaker = f.speaker ∧
    (mergeText f ev.text).timestamp = f.timestamp ∧
    (mergeText f ev.text).confidence = f.confidence ∧
    (texts.foldl mergeText f).meetingId = f.meetingId ∧
    (texts.foldl mergeText f).speaker = f.speaker ∧
    (texts.foldl mergeText f).timestamp = f.timestamp ∧
    (texts.foldl mergeText f).confidence = f.confidence := by
  have hfold : ∀ (ts : List String) (g : Fragment),
      (ts.foldl mergeText g).meetingId = g.meetingId ∧
      (ts.foldl mergeText g).speaker = g.speaker ∧
      (ts.foldl mergeText g).timestamp = g.timestamp ∧
      (ts.foldl mergeText g).confidence = g.confidence := by
    intro ts
    induction ts with
    | nil => intro g; exact ⟨rfl, rfl, rfl, rfl⟩
    | cons t ts ih =>
        intro g
        obtain ⟨a, b, c, d⟩ := ih (mergeText g t)
        exact ⟨a, b, c, d⟩
  refine ⟨?_, rfl, rfl, rfl, rfl, (hfold texts f).1, (hfold texts f).2.1,
    (hfold texts f).2.2.1, (hfold texts f).2.2.2⟩
  simp [persistFinal, hc, hi, hf]

/-- Witness for claim C9 at a concrete cursor, store and event. -/
theorem c9_merge_updates_only_text_witness :
    (mergeCond ⟨some "Alice", some "We should", some 1⟩
        ⟨"ship Friday", "Alice", 2, true⟩ = true) ∧
    (latestIdx [⟨"m1", "We should", "Alice", 1, 1⟩] "m1" "Alice" = some 0) ∧
    ((persistFinal "m1" ⟨some "Alice", some "We should", some 1⟩
        [⟨"m1", "We should", "Alice", 1, 1⟩] ⟨"ship Friday", "Alice", 2, true⟩).2 =
      [⟨"m1", "We should", "Alice", 1, 1⟩].set 0
        (mergeText ⟨"m1", "We should", "Alice", 1, 1⟩ "ship Friday") ∧
     (mergeText ⟨"m1", "We should", "Alice", 1, 1⟩ "ship Friday").timestamp =
      (⟨"m1", "We should", "Alice", 1, 1⟩ : Fragment).timestamp) := by
  have h := c9_merge_updates_only_text "m1" ⟨some "Alice", some "We should", some 1⟩
    [⟨"m1", "We should", "Alice", 1, 1⟩] ⟨"ship Friday", "Alice", 2, true⟩ 0
    ⟨"m1", "We should", "Alice", 1, 1⟩ [] (by decide) (by decide) rfl
  exact ⟨by decide, by decide, h.1, h.2.2.2.1⟩

/-- Claim C10 as amended: a final event whose text is non-empty but
whitespace-only is broadcast as a transcript event with the is-final flag
while the store and the merge cursor stay untouched; a final event whose
text is the empty string is dropped entirely — it is not broadcast either
(the listener requires a truthy text before doing anything). -/
theorem c10_whitespace_final_broadcast_only (mid : String) (st : BridgeState)
    (ev : SpeechEvent) (hfin : ev.isFinal = true) (hws : jsTrim ev.text = "") :
    (ev.text ≠ "" →
      handleTranscriptEvent mid st ev =
        ⟨st.cursor, st.store,
         st.broadcasts ++
           [Broadcast.transcript ev.speaker ev.text ev.timestamp true]⟩) ∧
    (ev.text = "" → handleTranscriptEvent mid st ev = st) := by
  constructor
  · intro hne
    unfold handleTranscriptEvent
    rw [if_neg hne, hfin]
    have hcond : (true && decide (jsTrim ev.text ≠ "")) = false := by
      rw [hws]; simp
    rw [hcond]
    rfl
  · intro he
    unfold handleTranscriptEvent
    rw [if_pos he]

/-- Witness for the amended claim C10 at a concrete whitespace-only final
event. -/
theorem c10_whitespace_final_broadcast_only_witness :
    (jsTrim " " = "") ∧
    handleTranscriptEvent "m1" ⟨freshCursor, [], []⟩ ⟨" ", "Alice", 1, true⟩ =
      ⟨freshCursor, [], [Broadcast.transcript "Alice" " " 1 true]⟩ := by
  refine ⟨by decide, ?_⟩
  exact (c10_whitespace_final_broadcast_only "m1" ⟨freshCursor, [], []⟩
    ⟨" ", "Alice", 1, true⟩ rfl (by decide)).1 (by decide)

/-- Claim C10 counterexample: a final event whose text is the empty string
is not broadcast at all — the listener skips the event entirely, leaving
the broadcast log empty, while the claim says it is still broadcast. -/
theorem c10_counterexample :
    (handleTranscriptEvent "m1" ⟨freshCursor, [], []⟩
        ⟨"", "Alice", 1, true⟩).broadcasts = [] := by
  decide

/-!  ## Audio bridge: metadata handling and the session registry

`handleMetadataMsg` embeds the JSON branch of the WebSocket message handler
of one inbound connection: the outcome records, in order, the externally
visible actions the handler performs, together with the updated
`activeSessions` registry, the session assigned to the connection and
whether the connection was closed.  -/

/-- The externally visible actions of the metadata branch, in the order the
handler performs them. -/
inductive BridgeAction where
  | sendReadyAck
  | closeNoMeeting
  | closeNoApiKey
  | openSpeechConnection
  | registerSession (botId meetingId : String)
  | startScheduler (meetingId : String)
deriving DecidableEq, Repr

/-- Result of handling the metadata message on one audio connection. -/
structure MetadataOutcome where
  actions : List BridgeAction
  registry : List (String × Session)
  session : Option Session
  closed : Bool
deriving DecidableEq, Repr

/-- The `findFirst` lookup of a meeting by the announced bot id (stored in
the `zoomMeetingId` column). -/
def findMeetingByBot (meetings : List MeetingRow) (botId : String) :
    Option MeetingRow :=
  meetings.find? (fun m => decide (m.zoomMeetingId = some botId))

/-- Embedding of the JSON-metadata branch of the connection handler.  The
readiness acknowledgment is sent unconditionally as the first step, before
the bot id is even read.  With a bot id present, the meeting lookup runs
next: no match closes the connection (the acknowledgment already went out)
and registers nothing; a missing Deepgram key likewise closes; otherwise
the Deepgram connection is opened, the session is stored into
`activeSessions` with plain `Map.set` semantics — replacing any live
session under the same bot id without any conflict check — and the summary
scheduler is started. -/
def handleMetadataMsg (meetings : List MeetingRow)
    (registry : List (String × Session)) (hasDeepgramKey : Bool)
    (metadataBotId : Option String) : MetadataOutcome :=
  match metadataBotId with
  | none => ⟨[.sendReadyAck], registry, none, false⟩
  | some b =>
      match findMeetingByBot meetings b with
      | none => ⟨[.sendReadyAck, .closeNoMeeting], registry, none, true⟩
      | some m =>
          if hasDeepgramKey then
            ⟨[.sendReadyAck, .openSpeechConnection, .registerSession b m.id,
              .startScheduler m.id],
             setEntry registry b ⟨b, m.id⟩, some ⟨b, m.id⟩, false⟩
          else
            ⟨[.sendReadyAck, .closeNoApiKey], registry, none, true⟩

theorem setEntry_keys_eq_of_mem {α : Type} {l : List (String × α)} {k : String}
    {v : α} (h : (l.map Prod.fst).contains k = true) :
    (setEntry l k v).map Prod.fst = l.map Prod.fst := by
  have hany : l.any (fun p => decide (p.1 = k)) = true := by
    rw [List.any_eq_true]
    rw [List.contains_eq_any_beq, List.any_eq_true] at h
    obtain ⟨x, hx, hbe⟩ := h
    obtain ⟨p, hp, rfl⟩ := List.mem_map.mp hx
    refine ⟨p, hp, ?_⟩
    simp only [beq_iff_eq] at hbe
    simp [hbe]
  unfold setEntry
  rw [if_pos hany]
  rw [List.map_map]
  apply List.map_congr_left
  intro p hp
  by_cases hpk : p.1 = k
  · simp [hpk]
  · simp [hpk]

theorem setEntry_nodup_keys {α : Type} {l : List (String × α)} {k : String}
    {v : α} (h : (l.map Prod.fst).Nodup) :
    ((setEntry l k v).map Prod.fst).Nodup := by
  unfold setEntry
  split
  · next hany =>
      have : (l.map (fun p => if p.1 = k then (k, v) else p)).map Prod.fst =
          l.map Prod.fst := by
        rw [List.map_map]
        apply List.map_congr_left
        intro p hp
        by_cases hpk : p.1 = k
        · simp [hpk]
        · simp [hpk]
      rw [this]
      exact h
  · next hany =>
      rw [List.any_eq_true] at hany
      push_neg at hany
      rw [List.map_append]
      rw [List.nodup_append]
      refine ⟨h, List.nodup_singleton _, ?_⟩
      intro a ha hb
      simp only [List.map_cons, List.map_nil, List.mem_singleton] at hb
      subst hb
      obtain ⟨p, hp, hpa⟩ := List.mem_map.mp ha
      exact absurd (decide_eq_true hpa) (hany p hp)

theorem find_in_mapped {α : Type} (k : String) (v : α) :
    ∀ l : List (String × α), (∃ p ∈ l, p.1 = k) →
      (l.map (fun p => if p.1 = k then (k, v) else p)).find?
        (fun p => decide (p.1 = k)) = some (k, v)
  | [], h => absurd h (by simp)
  | q :: rest, h => by
      by_cases hq : q.1 = k
      · rw [List.map_cons, if_pos hq]
        exact List.find?_cons_of_pos _ (by simp)
      · rw [List.map_cons, if_neg hq]
        rw [List.find?_cons_of_neg _ (by simp [hq])]
        obtain ⟨p, hp, hpk⟩ := h
        rcases List.mem_cons.mp hp with h1 | h1
        · exact absurd (h1 ▸ hpk) hq
        · exact find_in_mapped k v rest ⟨p, h1, hpk⟩

theorem find_append_last {α : Type} (k : String) (v : α) :
    ∀ l : List (String × α), (∀ p ∈ l, p.1 ≠ k) →
      (l ++ [(k, v)]).find? (fun p => decide (p.1 = k)) = some (k, v)
  | [], _ => List.find?_cons_of_pos _ (by simp)
  | q :: rest, h => by
      rw [List.cons_append]
      rw [List.find?_cons_of_neg _ (by simp [h q (List.mem_cons_self q rest)])]
      exact find_append_last k v rest (fun p hp => h p (List.mem_cons_of_mem q hp))

theorem lookupEntry_setEntry_self {α : Type} (l : List (String × α)) (k : String)
    (v : α) : lookupEntry (setEntry l k v) k = some v := by
  unfold setEntry lookupEntry
  split
  · next hany =>
      rw [List.any_eq_true] at hany
      obtain ⟨p, hp, hpk⟩ := hany
      rw [decide_eq_true_eq] at hpk
      rw [find_in_mapped k v l ⟨p, hp, hpk⟩]
      rfl
  · next hany =>
      rw [List.any_eq_true] at hany
      push_neg at hany
      have hall : ∀ p ∈ l, p.1 ≠ k := by
        intro p hp
        have := hany p hp
        simpa using this
      rw [find_append_last k v l hall]
      rfl

/-- Claim C3 counterexample: with a live session registered for bot id
`bot1` and a meeting matching `bot1`, a second audio channel announcing
`bot1` is not rejected: the connection stays open, it gets the
acknowledgment, and its freshly built session replaces the previously
registered one in the registry. -/
theorem c3_counterexample :
    (handleMetadataMsg [sampleRecordingMeeting] [("bot1", ⟨"bot1", "mOld"⟩)]
        true (some "bot1")).closed = false ∧
    (handleMetadataMsg [sampleRecordingMeeting] [("bot1", ⟨"bot1", "mOld"⟩)]
        true (some "bot1")).registry = [("bot1", ⟨"bot1", "m1"⟩)] ∧
    (⟨"bot1", "m1"⟩ : Session) ≠ ⟨"bot1", "mOld"⟩ := by
  decide

/-- Claim C3 as amended: a second audio channel announcing a bot id that
already has a live Session is not rejected — the handler acknowledges it,
builds a new Session and overwrites the registry entry for that bot id with
it (JavaScript `Map.set`), leaving the fate of the old session to its own
channel close.  The registry itself still holds at most one Session per bot
id: distinct keys stay distinct and the bot id now maps to the new
Session. -/
theorem c3_duplicate_bot_replaces_session (meetings : List MeetingRow)
    (registry : List (String × Session)) (b : String) (s0 : Session)
    (m : MeetingRow)
    (hlive : lookupEntry registry b = some s0)
    (hm : findMeetingByBot meetings b = some m)
    (hnodup : (registry.map Prod.fst).Nodup) :
    (handleMetadataMsg meetings registry true (some b)).closed = false ∧
    (handleMetadataMsg meetings registry true (some b)).registry =
      setEntry registry b ⟨b, m.id⟩ ∧
    (handleMetadataMsg meetings registry true (some b)).session = some ⟨b, m.id⟩ ∧
    lookupEntry (handleMetadataMsg meetings registry true (some b)).registry b =
      some ⟨b, m.id⟩ ∧
    (((handleMetadataMsg meetings registry true (some b)).registry.map
        Prod.fst).Nodup) := by
  simp only [handleMetadataMsg]
  rw [hm]
  refine ⟨rfl, rfl, rfl, lookupEntry_setEntry_self registry b ⟨b, m.id⟩,
    setEntry_nodup_keys hnodup⟩

/-- Witness for the amended claim C3 at a concrete registry holding a live
session for the announced bot id. -/
theorem c3_duplicate_bot_replaces_session_witness :
    (lookupEntry [("bot1", (⟨"bot1", "mOld"⟩ : Session))] "bot1" =
      some ⟨"bot1", "mOld"⟩) ∧
    (findMeetingByBot [sampleRecordingMeeting] "bot1" = some sampleRecordingMeeting) ∧
    (handleMetadataMsg [sampleRecordingMeeting] [("bot1", ⟨"bot1", "mOld"⟩)]
        true (some "bot1")).closed = false ∧
    (handleMetadataMsg [sampleRecordingMeeting] [("bot1", ⟨"bot1", "mOld"⟩)]
        true (some "bot1")).registry =
      setEntry [("bot1", ⟨"bot1", "mOld"⟩)] "bot1" ⟨"bot1", "m1"⟩ ∧
    (handleMetadataMsg [sampleRecordingMeeting] [("bot1", ⟨"bot1", "mOld"⟩)]
        true (some "bot1")).session = some ⟨"bot1", "m1"⟩ ∧
    lookupEntry (handleMetadataMsg [sampleRecordingMeeting]
        [("bot1", ⟨"bot1", "mOld"⟩)] true (some "bot1")).registry "bot1" =
      some ⟨"bot1", "m1"⟩ ∧
    (((handleMetadataMsg [sampleRecordingMeeting] [("bot1", ⟨"bot1", "mOld"⟩)]
        true (some "bot1")).registry.map Prod.fst).Nodup) := by
  have h := c3_duplicate_bot_replaces_session [sampleRecordingMeeting]
    [("bot1", ⟨"bot1", "mOld"⟩)] "bot1" ⟨"bot1", "mOld"⟩ sampleRecordingMeeting
    (by decide) (by decide) (by decide)
  exact ⟨by decide, by decide, h.1, h.2.1, h.2.2.1, h.2.2.2.1, h.2.2.2.2⟩

/-- Claim C4 counterexample: for a bot id that matches no meeting, the
handler still sends the readiness acknowledgment — it is the very first
action, performed before the lookup — and only then closes the
connection. -/
theorem c4_counterexample :
    (handleMetadataMsg [] [] true (some "ghost")).actions =
      [BridgeAction.sendReadyAck, BridgeAction.closeNoMeeting] ∧
    BridgeAction.sendReadyAck ∈ (handleMetadataMsg [] [] true (some "ghost")).actions ∧
    (handleMetadataMsg [] [] true (some "ghost")).closed = true := by
  decide

/-- Claim C4 as amended: on the metadata message the bridge first sends the
readiness acknowledgment, and then looks up the meeting by external bot id.
If no meeting matches, the connection is closed and no speech-to-text
connection is opened and no Session is registered — but the acknowledgment
has already been sent.  If a meeting matches (and the speech-to-text key is
configured), the bridge opens the per-session speech-to-text connection,
registers the Session and starts the scheduler, the acknowledgment having
preceded all of these. -/
theorem c4_ack_precedes_lookup (meetings : List MeetingRow)
    (registry : List (String × Session)) (b : String) :
    ((handleMetadataMsg meetings registry true (some b)).actions.head? =
      some BridgeAction.sendReadyAck) ∧
    (findMeetingByBot meetings b = none →
      (handleMetadataMsg meetings registry true (some b)).actions =
        [BridgeAction.sendReadyAck, BridgeAction.closeNoMeeting] ∧
      (handleMetadataMsg meetings registry true (some b)).closed = true ∧
      (handleMetadataMsg meetings registry true (some b)).session = none ∧
      (handleMetadataMsg meetings registry true (some b)).registry = registry) ∧
    (∀ m : MeetingRow, findMeetingByBot meetings b = some m →
      (handleMetadataMsg meetings registry true (some b)).actions =
        [BridgeAction.sendReadyAck, BridgeAction.openSpeechConnection,
         BridgeAction.registerSession b m.id, BridgeAction.startScheduler m.id] ∧
      (handleMetadataMsg meetings registry true (some b)).closed = false) := by
  refine ⟨?_, ?_, ?_⟩
  · simp only [handleMetadataMsg]
    cases h : findMeetingByBot meetings b with
    | none => rfl
    | some m => rfl
  · intro hnone
    simp only [handleMetadataMsg]
    rw [hnone]
    exact ⟨rfl, rfl, rfl, rfl⟩
  · intro m hm
    simp only [handleMetadataMsg]
    rw [hm]
    exact ⟨rfl, rfl⟩

/-- Witness for the amended claim C4: the not-found case at a concrete
unknown bot id. -/
theorem c4_ack_precedes_lookup_witness :
    (findMeetingByBot [] "ghost" = none) ∧
    ((handleMetadataMsg [] [] true (some "ghost")).actions.head? =
      some BridgeAction.sendReadyAck) ∧
    ((handleMetadataMsg [] [] true (some "ghost")).actions =
        [BridgeAction.sendReadyAck, BridgeAction.closeNoMeeting] ∧
      (handleMetadataMsg [] [] true (some "ghost")).closed = true ∧
      (handleMetadataMsg [] [] true (some "ghost")).session = none ∧
      (handleMetadataMsg [] [] true (some "ghost")).registry = []) := by
  have h := c4_ack_precedes_lookup [] [] "ghost"
  exact ⟨rfl, h.1, h.2.1 rfl⟩

end EzNotes
